import Mathlib

/-!
Verification of the constant decoder of the SPIR-V graph pass
(src/graph/spirv_pass.hpp) and of the tensor descriptor substitution
layer (src/tensor/descriptor_binding.hpp) of the Vulkan ML emulation
layer.  Pure functions are translated directly; machine integers are
modelled as Nat/Int with explicit reductions modulo a power of two
where the source performs fixed-width arithmetic; C++ exceptions and
failed C `assert` checks are modelled through the `Except` monad.
-/

/-! ## Constant decoder: data model -/

/-- Two complement interpretation of a raw bit pattern `bits` at bit width
`w`.  This models both the spirv-tools accessor
`Constant::GetSignExtendedValue` (exact sign extension at the declared
width, under the invariant `bits < 2 ^ w` of the stored constant) and the
C++ casts `int8_t`, `int16_t`, `int32_t`, `int64_t` applied to the
zero-extended value in the unsigned branch of `getConstScalar`. -/
def toSigned (w : Nat) (bits : Nat) : Int :=
  if bits < 2 ^ (w - 1) then (bits : Int) else (bits : Int) - 2 ^ w

/-- A constant-pool entry as the decoder observes it through the
spirv-tools `analysis::Constant` interface.

* `intConst`: an integer constant; `width` and `isSigned` come from the
  declared `Integer` type, `bits` is the raw stored pattern (invariant of
  the real pool: `bits < 2 ^ width`).
* `floatConst`: a float constant; `width` comes from the declared `Float`
  type.  The value the three supported branches produce
  (16 bit: reinterpret the raw half bits and convert, 32 bit:
  `GetFloatValue`, 64 bit: `GetDoubleValue`, each cast to the target type)
  is abstracted as the stored field `converted`, since every claim about
  float constants concerns only which branch is taken, never IEEE
  arithmetic.
* `boolConst`: a boolean constant.
* `compositeConst`: a composite constant with its component list
  (`AsCompositeConstant` / `GetComponents`).
* `nullConst`: a null constant (`AsNullConstant`); `tensorShapeId` records
  the result of `constant->type()->AsTensorARM()`: `some sid` when the
  declared type is a tensor with shape constant id `sid`, `none`
  otherwise.
* `otherConst`: any other constant kind, carrying `type()->kind()`. -/
inductive AnalysisConstant where
  | intConst (width : Nat) (isSigned : Bool) (bits : Nat)
  | floatConst (width : Nat) (converted : Int)
  | boolConst (b : Bool)
  | compositeConst (components : List AnalysisConstant)
  | nullConst (tensorShapeId : Option Nat)
  | otherConst (typeKind : Nat)

/-! ## getConstScalar -/

/-- Scalar constant decoder; models `GraphPassBase::getConstScalar`
(src/graph/spirv_pass.hpp lines 123-178) at its default instantiation
`T = int64_t`, machine values represented as unbounded integers.  The
branch structure mirrors the source: integer constants first (signed:
`GetSignExtendedValue` with no width check; unsigned: a switch over the
widths 8/16/32/64 that either keeps the zero-extended value, when
`isUnsigned` is requested, or reinterprets it through the signed type of
the declared width, and throws for any other width), then float constants
(switch over 16/32/64, throwing otherwise), then boolean constants
(mapped to 1/0), and finally a throw for every other constant kind. -/
def getConstScalar (constant : AnalysisConstant) (isUnsigned : Bool) :
    Except String Int :=
  match constant with
  | .intConst width isSigned bits =>
    if isSigned then
      .ok (toSigned width bits)
    else
      if width = 8 then .ok (if isUnsigned then (bits : Int) else toSigned 8 bits)
      else if width = 16 then .ok (if isUnsigned then (bits : Int) else toSigned 16 bits)
      else if width = 32 then .ok (if isUnsigned then (bits : Int) else toSigned 32 bits)
      else if width = 64 then .ok (if isUnsigned then (bits : Int) else toSigned 64 bits)
      else .error ("Unsupported integer constant width: " ++ toString width)
  | .floatConst width converted =>
    if width = 16 then .ok converted
    else if width = 32 then .ok converted
    else if width = 64 then .ok converted
    else .error ("Unsupported constant float width: " ++ toString width)
  | .boolConst b => .ok (if b then 1 else 0)
  | .compositeConst _ => .error "Unsupported constant type"
  | .nullConst _ => .error "Unsupported constant type"
  | .otherConst _ => .error "Unsupported constant type"

/-! ## Sign extension semantics -/

lemma two_pow_split (w : Nat) (hw : 1 ≤ w) :
    (2 : Int) ^ w = 2 ^ (w - 1) + 2 ^ (w - 1) := by
  have h : w - 1 + 1 = w := by omega
  calc (2 : Int) ^ w = 2 ^ (w - 1 + 1) := by rw [h]
  _ = 2 ^ (w - 1) * 2 := pow_succ 2 (w - 1)
  _ = 2 ^ (w - 1) + 2 ^ (w - 1) := by ring

/-- The value produced by two complement reinterpretation at width `w` is
the unique integer congruent to the raw bits modulo `2 ^ w` that lies in
the signed range of width `w`. -/
lemma toSigned_spec (w bits : Nat) (hw : 1 ≤ w) (hb : bits < 2 ^ w) :
    toSigned w bits % (2 : Int) ^ w = (bits : Int) ∧
      -((2 : Int) ^ (w - 1)) ≤ toSigned w bits ∧
      toSigned w bits < 2 ^ (w - 1) := by
  have hcast : (bits : Int) < 2 ^ w := by
    calc (bits : Int) < ((2 ^ w : Nat) : Int) := by exact_mod_cast hb
    _ = 2 ^ w := by push_cast; ring
  have hsplit := two_pow_split w hw
  unfold toSigned
  by_cases hlt : bits < 2 ^ (w - 1)
  · simp only [hlt, if_true]
    have hcast2 : (bits : Int) < 2 ^ (w - 1) := by
      calc (bits : Int) < ((2 ^ (w - 1) : Nat) : Int) := by exact_mod_cast hlt
      _ = 2 ^ (w - 1) := by push_cast; ring
    refine ⟨Int.emod_eq_of_lt (by positivity) hcast, ?_, hcast2⟩
    have : (0 : Int) ≤ (bits : Int) := by positivity
    have hpow : (0 : Int) < 2 ^ (w - 1) := by positivity
    omega
  · simp only [hlt, if_false]
    have hge : (2 : Int) ^ (w - 1) ≤ (bits : Int) := by
      have : (2 ^ (w - 1) : Nat) ≤ bits := by omega
      calc (2 : Int) ^ (w - 1) = ((2 ^ (w - 1) : Nat) : Int) := by push_cast; ring
      _ ≤ (bits : Int) := by exact_mod_cast this
    constructor
    · have hrw : (bits : Int) - 2 ^ w = (bits : Int) + 2 ^ w * (-1) := by ring
      rw [hrw, Int.add_mul_emod_self_left]
      exact Int.emod_eq_of_lt (by positivity) hcast
    · constructor
      · omega
      · omega

/-! ## Claim C1 -/

/-- C1 fails as stated: the source performs the width check only in the
unsigned branch; a signed integer constant of declared width 128 is
sign-extended and returned successfully instead of failing with an
unsupported-width error. -/
theorem c1_counterexample :
    getConstScalar (AnalysisConstant.intConst 128 true 5) false =
      Except.ok 5 := by
  rfl

/-- C1 (amended): the scalar decoder fails with an unsupported-width or
unsupported-type error for every unsigned integer constant whose declared
width is outside {8,16,32,64}, for every float constant whose width is
outside {16,32,64}, and for every constant of a kind other than
integer/float/boolean; signed integer constants are sign-extended without
a width check. -/
theorem c1_amended_unsupported_fails :
    (∀ w bits u, ¬(w = 8 ∨ w = 16 ∨ w = 32 ∨ w = 64) →
      getConstScalar (AnalysisConstant.intConst w false bits) u =
        Except.error ("Unsupported integer constant width: " ++ toString w)) ∧
    (∀ w conv u, ¬(w = 16 ∨ w = 32 ∨ w = 64) →
      getConstScalar (AnalysisConstant.floatConst w conv) u =
        Except.error ("Unsupported constant float width: " ++ toString w)) ∧
    (∀ comps u, getConstScalar (AnalysisConstant.compositeConst comps) u =
      Except.error "Unsupported constant type") ∧
    (∀ sid u, getConstScalar (AnalysisConstant.nullConst sid) u =
      Except.error "Unsupported constant type") ∧
    (∀ k u, getConstScalar (AnalysisConstant.otherConst k) u =
      Except.error "Unsupported constant type") := by
  refine ⟨?_, ?_, ?_, ?_, ?_⟩
  · intro w bits u hw
    simp only [getConstScalar, Bool.false_eq_true, if_false]
    rw [if_neg (by omega), if_neg (by omega), if_neg (by omega),
      if_neg (by omega)]
  · intro w conv u hw
    simp only [getConstScalar]
    rw [if_neg (by omega), if_neg (by omega), if_neg (by omega)]
  · intro comps u; rfl
  · intro sid u; rfl
  · intro k u; rfl

/-- Witness for the amended C1: a 128-bit unsigned integer constant and a
128-bit float constant both fail to decode. -/
theorem c1_amended_witness :
    getConstScalar (AnalysisConstant.intConst 128 false 5) false =
      Except.error ("Unsupported integer constant width: " ++ toString 128) ∧
    getConstScalar (AnalysisConstant.floatConst 128 0) false =
      Except.error ("Unsupported constant float width: " ++ toString 128) :=
  ⟨c1_amended_unsupported_fails.1 128 5 false (by decide),
   c1_amended_unsupported_fails.2.1 128 0 false (by decide)⟩

/-! ## Claim C2 -/

/-- C2: for every supported integer width, a signed constant decodes to
the sign extension of its bits (the unique representative of the bits in
the signed range of the declared width); an unsigned constant decoded
with the unsigned-interpretation flag yields the zero-extended value
directly, and without the flag yields the zero-extended value
reinterpreted through the signed type of the declared width. -/
theorem c2_integer_decode (w bits : Nat) (u : Bool)
    (hw : w = 8 ∨ w = 16 ∨ w = 32 ∨ w = 64) (hb : bits < 2 ^ w) :
    (∃ v : Int,
      getConstScalar (AnalysisConstant.intConst w true bits) u = Except.ok v ∧
      v % (2 : Int) ^ w = (bits : Int) ∧
      -((2 : Int) ^ (w - 1)) ≤ v ∧ v < 2 ^ (w - 1)) ∧
    getConstScalar (AnalysisConstant.intConst w false bits) true =
      Except.ok (bits : Int) ∧
    (∃ v : Int,
      getConstScalar (AnalysisConstant.intConst w false bits) false =
        Except.ok v ∧
      v % (2 : Int) ^ w = (bits : Int) ∧
      -((2 : Int) ^ (w - 1)) ≤ v ∧ v < 2 ^ (w - 1)) := by
  have hw1 : 1 ≤ w := by omega
  have hspec := toSigned_spec w bits hw1 hb
  refine ⟨⟨toSigned w bits, ?_, hspec.1, hspec.2.1, hspec.2.2⟩, ?_, ?_⟩
  · unfold getConstScalar; simp
  · rcases hw with h | h | h | h <;> subst h <;> unfold getConstScalar <;> simp
  · refine ⟨toSigned w bits, ?_, hspec.1, hspec.2.1, hspec.2.2⟩
    rcases hw with h | h | h | h <;> subst h <;> unfold getConstScalar <;> simp

/-- Witness for C2 at width 8 with raw value 200: decoding without the
unsigned flag yields the signed reinterpretation, pinned by the
congruence and range facts to -56. -/
theorem c2_integer_decode_witness :
    ((∃ v : Int,
      getConstScalar (AnalysisConstant.intConst 8 true 200) false =
        Except.ok v ∧
      v % (2 : Int) ^ 8 = ((200 : Nat) : Int) ∧
      -((2 : Int) ^ (8 - 1)) ≤ v ∧ v < 2 ^ (8 - 1)) ∧
    getConstScalar (AnalysisConstant.intConst 8 false 200) true =
      Except.ok ((200 : Nat) : Int) ∧
    (∃ v : Int,
      getConstScalar (AnalysisConstant.intConst 8 false 200) false =
        Except.ok v ∧
      v % (2 : Int) ^ 8 = ((200 : Nat) : Int) ∧
      -((2 : Int) ^ (8 - 1)) ≤ v ∧ v < 2 ^ (8 - 1))) ∧
    getConstScalar (AnalysisConstant.intConst 8 false 200) false =
      Except.ok (-56) :=
  ⟨c2_integer_decode 8 200 false (by decide) (by decide), by rfl⟩

/-! ## getConstVector -/

/-- The module context the vector decoder reads, covering the external
spirv-tools managers and one helper of this code base whose body lives
outside the graph pass header:

* `constants` models `context()->get_constant_mgr()->FindDeclaredConstant`.
* `isReplicate` models testing whether
  `context()->get_def_use_mgr()->GetDef(id)->opcode()` is
  `OpConstantCompositeReplicateEXT` or
  `OpSpecConstantCompositeReplicateEXT`.
* `tensorShapeId` stands for `getTensorType(id)->shape_id()`.
  Modelled from the spec: `getTensorType` is declared in
  src/graph/spirv_pass.hpp (line 51) but defined outside src/; per the
  spec it "looks up the declared type, asserts it is a tensor type, and
  extracts its element type and shape", so we record the shape constant
  id of the resolved tensor type, `none` when the type is not a tensor
  (the assertion failure case). -/
structure ConstCtx where
  constants : Nat → Option AnalysisConstant
  isReplicate : Nat → Bool
  tensorShapeId : Nat → Option Nat

/-- Depth-first, left-to-right flattening of a composite constant;
models `GraphPassBase::getFlattenedCompositeConstant`
(src/graph/spirv_pass.hpp lines 71-81): nested composites recurse, every
other component is decoded by `getConstScalar` with the default
`isUnsigned = false` and appended.  `fuel` is a recursion bound (a
decreasing counter consumed on every step); every theorem below holds
for every sufficient fuel, and the source constant pool is finite and
acyclic so a sufficient fuel always exists. -/
def flattenComposite : Nat → List AnalysisConstant → Except String (List Int)
  | 0, _ => .error "recursion depth exceeded"
  | _ + 1, [] => .ok []
  | fuel + 1, component :: rest =>
    match component with
    | .compositeConst comps => do
        let inner ← flattenComposite fuel comps
        let tail ← flattenComposite fuel rest
        .ok (inner ++ tail)
    | _ => do
        let v ← getConstScalar component false
        let tail ← flattenComposite fuel rest
        .ok (v :: tail)

/-- `static_cast<size_t>` applied to an `int64_t` value: reduction modulo
`2 ^ 64` of the two complement pattern. -/
def sizeTOfInt (d : Int) : Nat := (d % 2 ^ 64).toNat

/-- `std::vector<T>::resize(n, fill)`: truncate to `n` elements or extend
with `fill` up to `n` elements. -/
def listResize (l : List Int) (n : Nat) (fill : Int) : List Int :=
  l.take n ++ List.replicate (n - l.length) fill

/-- Vector constant decoder; models `GraphPassBase::getConstVector`
(src/graph/spirv_pass.hpp lines 83-117) at `T = int64_t`.  A composite
constant is flattened; when the originating instruction is a
replicate/splat opcode the source asserts that exactly one value was
produced, resolves the tensor type of the id, decodes its shape constant
recursively, and resizes the kernel to the product of the dimensions
(`size_t` accumulation) filled with the front element.  A null constant
of tensor type decodes its shape, asserts rank 1, and resizes an empty
kernel to the single dimension, value-initialised to zero.  C `assert`
failures and the undefined dereference of a missing constant are
modelled as errors. -/
def getConstVector (ctx : ConstCtx) : Nat → Nat → Except String (List Int)
  | 0, _ => .error "recursion depth exceeded"
  | fuel + 1, id =>
    match ctx.constants id with
    | none => .error "constant not found"
    | some c =>
      match c with
      | .compositeConst comps => do
          let kernel ← flattenComposite fuel comps
          if ctx.isReplicate id then
            if kernel.length = 1 then
              match ctx.tensorShapeId id with
              | some sid => do
                  let dimensions ← getConstVector ctx fuel sid
                  let compositeCount := dimensions.foldl
                    (fun acc d => (acc * sizeTOfInt d) % 2 ^ 64) 1
                  .ok (listResize kernel compositeCount (kernel.headD 0))
              | none => .error "assertion failed: type is not a tensor"
            else .error "assertion failed: kernel.size() == 1"
          else .ok kernel
      | .nullConst tsid =>
          match tsid with
          | some sid => do
              let shape ← getConstVector ctx fuel sid
              if shape.length = 1 then
                .ok (listResize [] (sizeTOfInt (shape.headD 0)) 0)
              else .error "assertion failed: shape.size() == 1"
          | none => .error "assertion failed: type is not a tensor"
      | _ => .error "assertion failed: unsupported constant kind"

/-! ## Helper lemmas for the vector decoder -/

lemma listResize_singleton (v : Int) (n : Nat) :
    listResize [v] n v = List.replicate n v := by
  cases n with
  | zero => simp [listResize]
  | succ m =>
    simp [listResize, List.replicate_succ]

lemma listResize_nil (n : Nat) : listResize [] n 0 = List.replicate n 0 := by
  simp [listResize]

/-- The `size_t` product accumulation of the splat branch coincides with
the mathematical product of the dimensions when all dimensions are
positive and the accumulated product stays below `2 ^ 64`. -/
lemma foldl_sizeT_prod (dims : List Int) (acc : Nat)
    (hpos : ∀ d ∈ dims, 0 < d)
    (hb : acc * (dims.map Int.toNat).prod < 2 ^ 64) :
    dims.foldl (fun a d => (a * sizeTOfInt d) % 2 ^ 64) acc =
      acc * (dims.map Int.toNat).prod := by
  induction dims generalizing acc with
  | nil => simp
  | cons d rest ih =>
    have hd : 0 < d := hpos d (List.mem_cons_self d rest)
    have hrest : ∀ x ∈ rest, 0 < x := fun x hx =>
      hpos x (List.mem_cons_of_mem d hx)
    have hprodpos : 0 < (rest.map Int.toNat).prod := by
      apply List.prod_pos
      intro x hx
      rcases List.mem_map.mp hx with ⟨y, hy, rfl⟩
      have := hrest y hy
      omega
    have hdpos : 0 < d.toNat := by omega
    rcases Nat.eq_zero_or_pos acc with hz | haccpos
    · subst hz
      have hzb : (0 : Nat) * (rest.map Int.toNat).prod < 2 ^ 64 := by
        simp
      simp only [List.foldl_cons, Nat.zero_mul, Nat.zero_mod]
      rw [ih 0 hrest hzb]
      simp
    · have hb2 : acc * (d.toNat * (rest.map Int.toNat).prod) < 2 ^ 64 := by
        simpa [mul_assoc] using hb
      have h1 : d.toNat * 1 ≤ d.toNat * (rest.map Int.toNat).prod :=
        Nat.mul_le_mul (le_refl d.toNat) hprodpos
      have h2 : acc * d.toNat ≤ acc * (d.toNat * (rest.map Int.toNat).prod) :=
        Nat.mul_le_mul (le_refl acc) (by omega)
      have h3 : d.toNat ≤ acc * (d.toNat * (rest.map Int.toNat).prod) := by
        calc d.toNat = 1 * (d.toNat * 1) := by ring
        _ ≤ acc * (d.toNat * (rest.map Int.toNat).prod) :=
            Nat.mul_le_mul haccpos (by omega)
      have hdlt : d.toNat < 2 ^ 64 := by omega
      have hsz : sizeTOfInt d = d.toNat := by
        unfold sizeTOfInt
        have hdnat : ((d.toNat : Nat) : Int) = d := Int.toNat_of_nonneg (by omega)
        have hdint : (d : Int) < 2 ^ 64 := by
          calc (d : Int) = ((d.toNat : Nat) : Int) := hdnat.symm
          _ < ((2 ^ 64 : Nat) : Int) := by exact_mod_cast hdlt
          _ = 2 ^ 64 := by norm_cast
        rw [Int.emod_eq_of_lt (by omega) hdint]
      simp only [List.foldl_cons]
      rw [hsz, Nat.mod_eq_of_lt (by omega : acc * d.toNat < 2 ^ 64)]
      rw [ih (acc * d.toNat) hrest (by rw [mul_assoc]; exact hb2)]
      simp [mul_assoc]

lemma exceptBind_ok {α β : Type} (a : α) (f : α → Except String β) :
    (Except.ok a >>= f) = f a := rfl

/-! ## Claim C6 -/

/-- C6: decoding a composite constant whose originating instruction is a
replicate/splat opcode, and whose flattening produced the single value
`v`, yields `v` replicated to the product of the dimensions of the shape
of the resolved tensor type, the shape itself being obtained by decoding
the tensor type shape constant recursively. -/
theorem c6_splat_composite (ctx : ConstCtx) (fuel id sid : Nat)
    (comps : List AnalysisConstant) (v : Int) (dims : List Int)
    (hc : ctx.constants id = some (AnalysisConstant.compositeConst comps))
    (hr : ctx.isReplicate id = true)
    (hk : flattenComposite fuel comps = Except.ok [v])
    (hs : ctx.tensorShapeId id = some sid)
    (hd : getConstVector ctx fuel sid = Except.ok dims)
    (hpos : ∀ d ∈ dims, 0 < d)
    (hb : (dims.map Int.toNat).prod < 2 ^ 64) :
    getConstVector ctx (fuel + 1) id =
      Except.ok (List.replicate (dims.map Int.toNat).prod v) := by
  unfold getConstVector
  rw [hc]
  simp only [hk, hr, hs, hd, if_true]
  rw [exceptBind_ok]
  simp only [List.length_singleton, if_true]
  rw [exceptBind_ok]
  rw [foldl_sizeT_prod dims 1 hpos (by simpa using hb)]
  simp only [List.headD_cons, one_mul]
  rw [listResize_singleton]

/-- Witness context for C6: id 1 is a splat composite with single
component 7 and tensor shape constant id 2, which decodes to the shape
[2, 3]. -/
def c6ctx : ConstCtx :=
  ⟨fun n => if n = 1 then
      some (AnalysisConstant.compositeConst [AnalysisConstant.intConst 32 true 7])
    else if n = 2 then
      some (AnalysisConstant.compositeConst
        [AnalysisConstant.intConst 32 true 2, AnalysisConstant.intConst 32 true 3])
    else none,
   fun n => n == 1,
   fun n => if n = 1 then some 2 else none⟩

/-- Witness for C6: the splat composite with component 7 and shape [2, 3]
decodes to 7 replicated 6 times. -/
theorem c6_splat_composite_witness :
    getConstVector c6ctx 11 1 =
      Except.ok (List.replicate (([2, 3] : List Int).map Int.toNat).prod 7) :=
  c6_splat_composite c6ctx 10 1 2 [AnalysisConstant.intConst 32 true 7] 7
    [2, 3] rfl rfl rfl rfl rfl (by decide) (by decide)

/-! ## Claim C7 -/

/-- C7: decoding a null constant whose type is a tensor yields, when the
decoded shape is the single-dimension list [n], a zero-filled sequence of
length n, and fails on the rank assertion when the decoded shape does not
have exactly one dimension. -/
theorem c7_null_tensor (ctx : ConstCtx) (fuel id sid : Nat)
    (hc : ctx.constants id = some (AnalysisConstant.nullConst (some sid))) :
    (∀ n : Int, getConstVector ctx fuel sid = Except.ok [n] →
      0 ≤ n → n < 2 ^ 64 →
      getConstVector ctx (fuel + 1) id =
        Except.ok (List.replicate n.toNat 0)) ∧
    (∀ dims : List Int, getConstVector ctx fuel sid = Except.ok dims →
      dims.length ≠ 1 →
      getConstVector ctx (fuel + 1) id =
        Except.error "assertion failed: shape.size() == 1") := by
  constructor
  · intro n hshape hn0 hnlt
    unfold getConstVector
    rw [hc]
    simp only [hshape]
    rw [exceptBind_ok]
    simp only [List.length_singleton, if_true, List.headD_cons]
    have hsz : sizeTOfInt n = n.toNat := by
      unfold sizeTOfInt
      rw [Int.emod_eq_of_lt hn0 hnlt]
    rw [hsz, listResize_nil]
  · intro dims hshape hlen
    unfold getConstVector
    rw [hc]
    simp only [hshape]
    rw [exceptBind_ok]
    rw [if_neg hlen]

/-- Witness context for C7: id 1 is a null constant of a rank-1 tensor
with shape [4]; id 3 is a null constant of a rank-2 tensor with shape
[2, 3]. -/
def c7ctx : ConstCtx :=
  ⟨fun n => if n = 1 then some (AnalysisConstant.nullConst (some 2))
    else if n = 2 then
      some (AnalysisConstant.compositeConst [AnalysisConstant.intConst 32 true 4])
    else if n = 3 then some (AnalysisConstant.nullConst (some 4))
    else if n = 4 then
      some (AnalysisConstant.compositeConst
        [AnalysisConstant.intConst 32 true 2, AnalysisConstant.intConst 32 true 3])
    else none,
   fun _ => false,
   fun _ => none⟩

/-- Witness for C7: the rank-1 null tensor with shape [4] decodes to four
zeros; the rank-2 null tensor fails the rank assertion. -/
theorem c7_null_tensor_witness :
    getConstVector c7ctx 11 1 = Except.ok (List.replicate (Int.toNat 4) 0) ∧
    getConstVector c7ctx 11 3 =
      Except.error "assertion failed: shape.size() == 1" :=
  ⟨(c7_null_tensor c7ctx 10 1 2 rfl).1 4 rfl (by decide) (by decide),
   (c7_null_tensor c7ctx 10 3 4 rfl).2 [2, 3] rfl (by decide)⟩

/-! ## Descriptor substitution layer: data model -/

/-- Relevant values of the `VkDescriptorType` enumeration; every other
enumerant is carried abstractly. -/
inductive VkDescriptorType where
  | uniformBuffer
  | storageBuffer
  | tensorARM
  | other (value : Nat)
deriving DecidableEq

/-- Relevant values of the `VkImageLayout` enumeration. -/
inductive VkImageLayout where
  | general
  | tensorAliasingARM
  | other (value : Nat)
deriving DecidableEq

/-- `VkDescriptorSetLayoutBinding`; `pImmutableSamplers` is an opaque
caller pointer, carried through untouched. -/
structure VkDescriptorSetLayoutBinding where
  binding : Nat
  descriptorType : VkDescriptorType
  descriptorCount : Nat
  stageFlags : Nat
  pImmutableSamplers : Option Nat
deriving DecidableEq

/-- `hasTensor` for layout bindings (src/tensor/descriptor_binding.hpp
line 21): the descriptor type is `VK_DESCRIPTOR_TYPE_TENSOR_ARM`. -/
def hasTensorBinding (b : VkDescriptorSetLayoutBinding) : Bool :=
  b.descriptorType == VkDescriptorType.tensorARM

/-- Modelled from the spec: the fixed binding-index offset
`EXPERIMENTAL_MVK_BUFFER_BINDING_OFFSET` used by the experimental
secondary-resource mode; it is defined by the build system outside src/
and its numeric value is irrelevant to every claim. -/
def EXPERIMENTAL_MVK_BUFFER_BINDING_OFFSET : Nat := 8

/-- `flags &= ~VK_DESCRIPTOR_BINDING_UPDATE_AFTER_BIND_BIT` at the 32-bit
width of `VkDescriptorBindingFlags`; the bit has value 1, so the mask is
`2 ^ 32 - 2`. -/
def clearUpdateAfterBind (f : Nat) : Nat := f &&& (2 ^ 32 - 2)

/-- One pass over the binding list; the result pair is the binding list
with every tensor binding retyped to a uniform buffer in place (all other
fields kept), and the storage-buffer bindings appended after all
originals in experimental mode.  Models the loop of
`substituteTensorBinding` (src/tensor/descriptor_binding.hpp lines
34-57) split by destination: in the source the first component is the
mutated copy of the input vector, the second the entries added by
`emplace_back`, which always land after all originals because the loop
bound is the original count. -/
def substituteTensorBindingAux (experimental : Bool) :
    List VkDescriptorSetLayoutBinding →
      List VkDescriptorSetLayoutBinding × List VkDescriptorSetLayoutBinding
  | [] => ([], [])
  | b :: rest =>
    let tail := substituteTensorBindingAux experimental rest
    if hasTensorBinding b then
      (⟨b.binding, VkDescriptorType.uniformBuffer, b.descriptorCount,
          b.stageFlags, b.pImmutableSamplers⟩ :: tail.1,
       (if experimental then
          [⟨(b.binding + EXPERIMENTAL_MVK_BUFFER_BINDING_OFFSET) % 2 ^ 32,
            VkDescriptorType.storageBuffer, b.descriptorCount, b.stageFlags,
            none⟩]
        else []) ++ tail.2)
    else (b :: tail.1, tail.2)

/-- Post-call contents of the caller flag array.  The source clears the
update-after-bind bit through a `const_cast` on
`bindingInfo->pBindingFlags[i]` for every tensor binding index `i`; the
in-place write is modelled by returning the final array state. -/
def substituteTensorBindingFlags :
    List VkDescriptorSetLayoutBinding → List Nat → List Nat
  | [], fs => fs
  | _ :: _, [] => []
  | b :: rest, f :: fs =>
    (if hasTensorBinding b then clearUpdateAfterBind f else f) ::
      substituteTensorBindingFlags rest fs

/-- `substituteTensorBinding` (src/tensor/descriptor_binding.hpp lines
27-60).  The first component is the returned binding vector; the second
models the caller flag array after the call (`none` when no
`VkDescriptorSetLayoutBindingFlagsCreateInfo` was supplied). -/
def substituteTensorBinding (experimental : Bool)
    (pBindings : List VkDescriptorSetLayoutBinding)
    (bindingInfo : Option (List Nat)) :
    List VkDescriptorSetLayoutBinding × Option (List Nat) :=
  let r := substituteTensorBindingAux experimental pBindings
  (r.1 ++ r.2, bindingInfo.map (substituteTensorBindingFlags pBindings))

/-! ## Helper lemmas for the binding rewrite -/

/-- Fallback element for `List.getD` on bindings. -/
def defaultBinding : VkDescriptorSetLayoutBinding :=
  ⟨0, VkDescriptorType.other 0, 0, 0, none⟩

lemma getD_map_of_lt {α β : Type} (f : α → β) (l : List α) (i : Nat)
    (da : α) (db : β) (h : i < l.length) :
    (l.map f).getD i db = f (l.getD i da) := by
  induction l generalizing i with
  | nil => simp at h
  | cons a t ih =>
    cases i with
    | zero => simp
    | succ j =>
      simp only [List.map_cons, List.getD_cons_succ]
      exact ih j (by simpa using h)

lemma substituteTensorBindingAux_false
    (bs : List VkDescriptorSetLayoutBinding) :
    substituteTensorBindingAux false bs =
      (bs.map (fun b =>
        if hasTensorBinding b then
          ⟨b.binding, VkDescriptorType.uniformBuffer, b.descriptorCount,
           b.stageFlags, b.pImmutableSamplers⟩
        else b), []) := by
  induction bs with
  | nil => rfl
  | cons b rest ih =>
    simp only [substituteTensorBindingAux, ih, List.map_cons]
    by_cases h : hasTensorBinding b <;> simp [h]

lemma substituteTensorBindingFlags_length
    (bs : List VkDescriptorSetLayoutBinding) (fs : List Nat)
    (hlen : fs.length = bs.length) :
    (substituteTensorBindingFlags bs fs).length = fs.length := by
  induction bs generalizing fs with
  | nil => cases fs <;> simp [substituteTensorBindingFlags]
  | cons b rest ih =>
    cases fs with
    | nil => simp at hlen
    | cons f ft =>
      simp only [substituteTensorBindingFlags, List.length_cons]
      rw [ih ft (by simpa using hlen)]

lemma substituteTensorBindingFlags_getD
    (bs : List VkDescriptorSetLayoutBinding) (fs : List Nat) (i : Nat)
    (hi : i < bs.length) (hlen : fs.length = bs.length) :
    (substituteTensorBindingFlags bs fs).getD i 0 =
      if hasTensorBinding (bs.getD i defaultBinding) then
        clearUpdateAfterBind (fs.getD i 0)
      else fs.getD i 0 := by
  induction bs generalizing fs i with
  | nil => simp at hi
  | cons b rest ih =>
    cases fs with
    | nil => simp at hlen
    | cons f ft =>
      cases i with
      | zero => simp [substituteTensorBindingFlags]
      | succ j =>
        simp only [substituteTensorBindingFlags, List.getD_cons_succ]
        exact ih ft j (by simpa using hi) (by simpa using hlen)

/-- Bit profile of the clearing mask `2 ^ 32 - 2`: bit 0 is clear, bits 1
to 31 are set, bits from 32 on are clear. -/
lemma clearMask_testBit (k : Nat) :
    (2 ^ 32 - 2 : Nat).testBit k = (decide (k ≠ 0) && decide (k < 32)) := by
  cases k with
  | zero => decide
  | succ j =>
    rw [Nat.testBit_add_one]
    have hdiv : (2 ^ 32 - 2 : Nat) / 2 = 2 ^ 31 - 1 := by norm_num
    rw [hdiv, Nat.testBit_two_pow_sub_one]
    rcases Nat.lt_or_ge j 31 with h | h
    · simp [h, Nat.succ_lt_succ h]
    · have h1 : ¬(j < 31) := by omega
      have h2 : ¬(j + 1 < 32) := by omega
      simp [h1, h2]

/-- Clearing the update-after-bind bit clears bit 0 and keeps every other
bit of a 32-bit flag word. -/
lemma clearUpdateAfterBind_testBit (f : Nat) (hf : f < 2 ^ 32) :
    (clearUpdateAfterBind f).testBit 0 = false ∧
      ∀ k, k ≠ 0 → (clearUpdateAfterBind f).testBit k = f.testBit k := by
  constructor
  · unfold clearUpdateAfterBind
    rw [Nat.testBit_and, clearMask_testBit]
    simp
  · intro k hk
    unfold clearUpdateAfterBind
    rw [Nat.testBit_and, clearMask_testBit]
    rcases Nat.lt_or_ge k 32 with h | h
    · simp [hk, h]
    · have hfk : f.testBit k = false := by
        apply Nat.testBit_lt_two_pow
        calc f < 2 ^ 32 := hf
        _ ≤ 2 ^ k := Nat.pow_le_pow_right (by norm_num) h
      have h2 : ¬(k < 32) := by omega
      simp [hfk, h2]

/-! ## Claim C3 -/

/-- C3: rewriting a descriptor-set-layout binding list (default build,
experimental mode off) keeps the list length; each tensor binding is
replaced in place by a uniform-buffer binding with the same binding
number, descriptor count, stage flags and immutable-sampler pointer;
every other binding is returned unchanged at its original index; and in
the supplied flags array, at each tensor binding index the
update-after-bind bit (bit 0) is cleared with all other bits kept, while
flag entries at non-tensor indices are untouched. -/
theorem c3_substitute_binding (bs : List VkDescriptorSetLayoutBinding)
    (fs : List Nat) (hlen : fs.length = bs.length)
    (hf : ∀ f ∈ fs, f < 2 ^ 32) :
    (substituteTensorBinding false bs (some fs)).1.length = bs.length ∧
    (∀ i, i < bs.length →
      (hasTensorBinding (bs.getD i defaultBinding) = true →
        (substituteTensorBinding false bs (some fs)).1.getD i defaultBinding =
          ⟨(bs.getD i defaultBinding).binding, VkDescriptorType.uniformBuffer,
           (bs.getD i defaultBinding).descriptorCount,
           (bs.getD i defaultBinding).stageFlags,
           (bs.getD i defaultBinding).pImmutableSamplers⟩) ∧
      (hasTensorBinding (bs.getD i defaultBinding) = false →
        (substituteTensorBinding false bs (some fs)).1.getD i defaultBinding =
          bs.getD i defaultBinding)) ∧
    (∃ fs2, (substituteTensorBinding false bs (some fs)).2 = some fs2 ∧
      fs2.length = fs.length ∧
      (∀ i, i < bs.length →
        (hasTensorBinding (bs.getD i defaultBinding) = true →
          (fs2.getD i 0).testBit 0 = false ∧
          ∀ k, k ≠ 0 → (fs2.getD i 0).testBit k = (fs.getD i 0).testBit k) ∧
        (hasTensorBinding (bs.getD i defaultBinding) = false →
          fs2.getD i 0 = fs.getD i 0))) := by
  have haux := substituteTensorBindingAux_false bs
  have hout : (substituteTensorBinding false bs (some fs)).1 =
      bs.map (fun b =>
        if hasTensorBinding b then
          ⟨b.binding, VkDescriptorType.uniformBuffer, b.descriptorCount,
           b.stageFlags, b.pImmutableSamplers⟩
        else b) := by
    simp [substituteTensorBinding, haux]
  refine ⟨?_, ?_, ?_⟩
  · rw [hout]; simp
  · intro i hi
    constructor
    · intro ht
      rw [hout, getD_map_of_lt _ bs i defaultBinding defaultBinding hi, ht]
      simp
    · intro ht
      rw [hout, getD_map_of_lt _ bs i defaultBinding defaultBinding hi, ht]
      simp
  · refine ⟨substituteTensorBindingFlags bs fs, rfl,
      substituteTensorBindingFlags_length bs fs hlen, ?_⟩
    intro i hi
    have hg := substituteTensorBindingFlags_getD bs fs i hi hlen
    have hfi : fs.getD i 0 < 2 ^ 32 := by
      have hilen : i < fs.length := by omega
      have : fs.getD i 0 ∈ fs := by
        rw [List.getD_eq_getElem fs 0 hilen]
        exact List.getElem_mem hilen
      exact hf _ this
    constructor
    · intro ht
      rw [hg, if_pos ht]
      exact clearUpdateAfterBind_testBit (fs.getD i 0) hfi
    · intro ht
      rw [hg, if_neg (by simp only [ht]; simp)]

/-- Witness bindings for C3: four bindings with the single tensor binding
at index 2 (count 1, stage flags 7). -/
def c3bindings : List VkDescriptorSetLayoutBinding :=
  [⟨3, VkDescriptorType.other 1, 2, 4, none⟩,
   ⟨4, VkDescriptorType.uniformBuffer, 1, 4, none⟩,
   ⟨5, VkDescriptorType.tensorARM, 1, 7, none⟩,
   ⟨6, VkDescriptorType.storageBuffer, 2, 4, some 9⟩]

/-- Witness for C3: with flags [1,1,1,1], the tensor binding at index 2
becomes a uniform-buffer binding with the same fields, index 0 passes
through unchanged, and the flag array after the call is [1,1,0,1]. -/
theorem c3_substitute_binding_witness :
    (substituteTensorBinding false c3bindings (some [1, 1, 1, 1])).1.length =
      c3bindings.length ∧
    (substituteTensorBinding false c3bindings (some [1, 1, 1, 1])).1.getD 2
        defaultBinding =
      ⟨5, VkDescriptorType.uniformBuffer, 1, 7, none⟩ ∧
    (substituteTensorBinding false c3bindings (some [1, 1, 1, 1])).1.getD 0
        defaultBinding = c3bindings.getD 0 defaultBinding ∧
    (substituteTensorBinding false c3bindings (some [1, 1, 1, 1])).2 =
      some [1, 1, 0, 1] :=
  ⟨(c3_substitute_binding c3bindings [1, 1, 1, 1] (by decide)
      (by decide)).1,
   ((c3_substitute_binding c3bindings [1, 1, 1, 1] (by decide)
      (by decide)).2.1 2 (by decide)).1 (by decide),
   ((c3_substitute_binding c3bindings [1, 1, 1, 1] (by decide)
      (by decide)).2.1 0 (by decide)).2 (by decide),
   by decide⟩

/-! ## Claim C10 -/

/-- C10: when a flags array is supplied together with a tensor binding
whose update-after-bind bit is set, the rewrite mutates the caller flag
array (modelled as the returned post-call array state, which differs from
the input at that index), leaves flag entries at non-tensor indices
untouched, and the returned binding vector itself carries no flag data
and does not depend on the flags input. -/
theorem c10_flags_in_place (bs : List VkDescriptorSetLayoutBinding)
    (fs : List Nat) (hlen : fs.length = bs.length) (i : Nat)
    (hi : i < bs.length)
    (ht : hasTensorBinding (bs.getD i defaultBinding) = true)
    (hset : (fs.getD i 0).testBit 0 = true)
    (hfi : fs.getD i 0 < 2 ^ 32) :
    ∃ fs2, (substituteTensorBinding false bs (some fs)).2 = some fs2 ∧
      fs2.getD i 0 ≠ fs.getD i 0 ∧
      (∀ j, j < bs.length →
        hasTensorBinding (bs.getD j defaultBinding) = false →
        fs2.getD j 0 = fs.getD j 0) ∧
      (substituteTensorBinding false bs (some fs)).1 =
        (substituteTensorBinding false bs none).1 := by
  refine ⟨substituteTensorBindingFlags bs fs, rfl, ?_, ?_, rfl⟩
  · have hg := substituteTensorBindingFlags_getD bs fs i hi hlen
    rw [hg, if_pos ht]
    intro heq
    have hbit := (clearUpdateAfterBind_testBit (fs.getD i 0) hfi).1
    rw [heq, hset] at hbit
    exact absurd hbit (by simp)
  · intro j hj htj
    have hg := substituteTensorBindingFlags_getD bs fs j hj hlen
    rw [hg, if_neg (by simp only [htj]; simp)]

/-- Witness bindings for C10: a tensor binding at index 1 among three. -/
def c10bindings : List VkDescriptorSetLayoutBinding :=
  [⟨0, VkDescriptorType.uniformBuffer, 1, 1, none⟩,
   ⟨1, VkDescriptorType.tensorARM, 1, 1, none⟩,
   ⟨2, VkDescriptorType.other 2, 1, 1, none⟩]

/-- Witness for C10 at flags [2, 3, 5]: the update-after-bind bit is set
at the tensor index 1, so the post-call array differs there and is
untouched elsewhere. -/
theorem c10_flags_in_place_witness :
    ∃ fs2,
      (substituteTensorBinding false c10bindings (some [2, 3, 5])).2 =
        some fs2 ∧
      fs2.getD 1 0 ≠ ([2, 3, 5] : List Nat).getD 1 0 ∧
      (∀ j, j < c10bindings.length →
        hasTensorBinding (c10bindings.getD j defaultBinding) = false →
        fs2.getD j 0 = ([2, 3, 5] : List Nat).getD j 0) ∧
      (substituteTensorBinding false c10bindings (some [2, 3, 5])).1 =
        (substituteTensorBinding false c10bindings none).1 :=
  c10_flags_in_place c10bindings [2, 3, 5] (by decide) 1 (by decide)
    (by decide) (by decide) (by decide)

/-! ## Descriptor-write rewrite: data model -/

/-- `VK_WHOLE_SIZE` (the all-ones 64-bit value). -/
def VK_WHOLE_SIZE : Nat := 2 ^ 64 - 1

/-- `VkDescriptorBufferInfo`. -/
structure VkDescriptorBufferInfo where
  buffer : Nat
  offset : Nat
  range : Nat
deriving DecidableEq

/-- `VkDescriptorImageInfo`; the image-info pointer of a write is
modelled by its pointee value. -/
structure VkDescriptorImageInfo where
  sampler : Nat
  imageView : Nat
  imageLayout : VkImageLayout
deriving DecidableEq

/-- The layer `TensorViewARM` wrapper, reduced to the two buffer handles
the rewrite reads: `getDescriptorBuffer(dev)` (the handle is recorded
already resolved against the device) and `getTensorBuffer()`. -/
structure TensorViewARM where
  descriptorBuffer : Nat
  tensorBuffer : Nat
deriving DecidableEq

/-- A `VkDescriptorBufferInfo` pointer held by a write.  The source
stores the records it creates in a `std::list` whose node addresses stay
stable and points the emitted writes into it, so pointer identity
matters: `callerOwned` is a pointer into caller memory carrying its
pointee, `callLocal i` is a pointer to element `i` of the buffer-info
list returned by the call. -/
inductive BufferInfoPtr where
  | callerOwned (info : VkDescriptorBufferInfo)
  | callLocal (index : Nat)
deriving DecidableEq

/-- `VkWriteDescriptorSet`.  `tensorInfo` models the result of
`findType<VkWriteDescriptorSetTensorARM>` over the `pNext` chain
(`some views` when a tensor-view list is attached); `sType` and the
remaining chain carry no information the rewrite reads. -/
structure VkWriteDescriptorSet where
  dstSet : Nat
  dstBinding : Nat
  dstArrayElement : Nat
  descriptorCount : Nat
  descriptorType : VkDescriptorType
  pImageInfo : Option VkDescriptorImageInfo
  pBufferInfo : Option BufferInfoPtr
  pTexelBufferView : Option Nat
  tensorInfo : Option (List TensorViewARM)
deriving DecidableEq

/-- `hasTensor` for descriptor writes (src/tensor/descriptor_binding.hpp
line 21). -/
def hasTensorWrite (w : VkWriteDescriptorSet) : Bool :=
  w.descriptorType == VkDescriptorType.tensorARM

/-- Scratch state of one rewrite call: the emitted writes and the
call-local node-stable buffer-info and image-info lists. -/
structure WriteSubstState where
  writes : List VkWriteDescriptorSet
  bufferInfos : List VkDescriptorBufferInfo
  imageInfos : List VkDescriptorImageInfo
deriving DecidableEq

/-- Inner loop of the tensor-write case
(src/tensor/descriptor_binding.hpp lines 96-138): for view `j` append a
buffer-info record for the view descriptor buffer (offset 0, whole
size) and a uniform-buffer write addressing it at array element
`dstArrayElement + j` with descriptor count 1; in experimental mode also
append a storage-buffer record and write for the raw tensor buffer at
the offset binding. -/
def emitTensorWrites (experimental : Bool) (w : VkWriteDescriptorSet) :
    Nat → List TensorViewARM → WriteSubstState → WriteSubstState
  | _, [], st => st
  | j, view :: views, st =>
    let st1 : WriteSubstState :=
      ⟨st.writes ++
        [⟨w.dstSet, w.dstBinding, (w.dstArrayElement + j) % 2 ^ 32, 1,
          VkDescriptorType.uniformBuffer, none,
          some (BufferInfoPtr.callLocal st.bufferInfos.length), none, none⟩],
       st.bufferInfos ++ [⟨view.descriptorBuffer, 0, VK_WHOLE_SIZE⟩],
       st.imageInfos⟩
    let st2 : WriteSubstState :=
      if experimental then
        ⟨st1.writes ++
          [⟨w.dstSet,
            (w.dstBinding + EXPERIMENTAL_MVK_BUFFER_BINDING_OFFSET) % 2 ^ 32,
            (w.dstArrayElement + j) % 2 ^ 32, 1,
            VkDescriptorType.storageBuffer, none,
            some (BufferInfoPtr.callLocal st1.bufferInfos.length), none, none⟩],
         st1.bufferInfos ++ [⟨view.tensorBuffer, 0, VK_WHOLE_SIZE⟩],
         st1.imageInfos⟩
      else st1
    emitTensorWrites experimental w (j + 1) views st2

/-- Outer loop of `substituteTensorWriteDescriptorSet`
(src/tensor/descriptor_binding.hpp lines 71-139).  Non-tensor writes
pass through unchanged unless their image info carries the
tensor-aliasing layout, in which case a fresh image-info record with the
general layout (same sampler and view) is appended and the copied write
points at it; tensor writes must carry a tensor-view list (throwing
otherwise) and expand through `emitTensorWrites`. -/
def substituteWritesLoop (experimental : Bool) :
    List VkWriteDescriptorSet → WriteSubstState →
      Except String WriteSubstState
  | [], st => .ok st
  | write :: rest, st =>
    if hasTensorWrite write then
      match write.tensorInfo with
      | none => .error "Write descriptor is missing tensor descriptor tensor info"
      | some views =>
          substituteWritesLoop experimental rest
            (emitTensorWrites experimental write 0 views st)
    else
      match write.pImageInfo with
      | none =>
          substituteWritesLoop experimental rest
            ⟨st.writes ++ [write], st.bufferInfos, st.imageInfos⟩
      | some imageInfo =>
        if imageInfo.imageLayout = VkImageLayout.tensorAliasingARM then
          substituteWritesLoop experimental rest
            ⟨st.writes ++
              [⟨write.dstSet, write.dstBinding, write.dstArrayElement,
                write.descriptorCount, write.descriptorType,
                some ⟨imageInfo.sampler, imageInfo.imageView,
                  VkImageLayout.general⟩,
                write.pBufferInfo, write.pTexelBufferView, write.tensorInfo⟩],
             st.bufferInfos,
             st.imageInfos ++
              [⟨imageInfo.sampler, imageInfo.imageView, VkImageLayout.general⟩]⟩
        else
          substituteWritesLoop experimental rest
            ⟨st.writes ++ [write], st.bufferInfos, st.imageInfos⟩

/-- `substituteTensorWriteDescriptorSet`
(src/tensor/descriptor_binding.hpp lines 62-142): run the loop from the
empty scratch state and return the emitted writes together with the two
node-stable info lists. -/
def substituteTensorWriteDescriptorSet (experimental : Bool)
    (pDescriptorWrites : List VkWriteDescriptorSet) :
    Except String (List VkWriteDescriptorSet ×
      List VkDescriptorBufferInfo × List VkDescriptorImageInfo) :=
  (substituteWritesLoop experimental pDescriptorWrites ⟨[], [], []⟩).map
    (fun st => (st.writes, st.bufferInfos, st.imageInfos))

/-! ## Claim C8 -/

lemma substituteWritesLoop_missing_info (experimental : Bool)
    (writes : List VkWriteDescriptorSet) (w : VkWriteDescriptorSet)
    (hw : w ∈ writes) (ht : hasTensorWrite w = true)
    (hn : w.tensorInfo = none) :
    ∀ st, substituteWritesLoop experimental writes st =
      Except.error "Write descriptor is missing tensor descriptor tensor info" := by
  induction writes with
  | nil => simp at hw
  | cons a rest ih =>
    intro st
    rcases List.mem_cons.mp hw with rfl | hmem
    · simp only [substituteWritesLoop, ht, if_true, hn]
    · simp only [substituteWritesLoop]
      by_cases hta : hasTensorWrite a
      · simp only [hta, if_true]
        match htia : a.tensorInfo with
        | none => rfl
        | some views => exact ih hmem _
      · simp only [hta, if_false]
        match hia : a.pImageInfo with
        | none => exact ih hmem _
        | some imageInfo =>
          by_cases hl : imageInfo.imageLayout = VkImageLayout.tensorAliasingARM
          · simp only [hl, if_true]
            exact ih hmem _
          · simp only [hl, if_false]
            exact ih hmem _

/-- C8: if any intercepted write is tensor-typed but carries no attached
tensor-view structure, the rewrite of the whole call fails with the
missing-tensor-info error and no rewritten writes are returned. -/
theorem c8_missing_tensor_info (experimental : Bool)
    (writes : List VkWriteDescriptorSet) (w : VkWriteDescriptorSet)
    (hw : w ∈ writes) (ht : hasTensorWrite w = true)
    (hn : w.tensorInfo = none) :
    substituteTensorWriteDescriptorSet experimental writes =
      Except.error "Write descriptor is missing tensor descriptor tensor info" := by
  unfold substituteTensorWriteDescriptorSet
  rw [substituteWritesLoop_missing_info experimental writes w hw ht hn]
  rfl

/-- Witness for C8: a two-write call whose second write is tensor-typed
without tensor info fails as a whole. -/
theorem c8_missing_tensor_info_witness :
    substituteTensorWriteDescriptorSet false
      [⟨1, 0, 0, 1, VkDescriptorType.uniformBuffer, none, none, none, none⟩,
       ⟨1, 2, 0, 1, VkDescriptorType.tensorARM, none, none, none, none⟩] =
      Except.error "Write descriptor is missing tensor descriptor tensor info" :=
  c8_missing_tensor_info false _
    ⟨1, 2, 0, 1, VkDescriptorType.tensorARM, none, none, none, none⟩
    (by decide) (by decide) (by decide)

/-! ## Claim C9 -/

/-- C9: a non-tensor write whose image info carries the tensor-aliasing
layout is emitted with the image layout normalized to the general layout
and the sampler and image view preserved, every other field of the write
unchanged, whatever its descriptor count; the new image-info record is
stored in the call-local image-info list. -/
theorem c9_image_layout_rewrite (experimental : Bool)
    (w : VkWriteDescriptorSet) (ii : VkDescriptorImageInfo)
    (hnt : hasTensorWrite w = false) (hii : w.pImageInfo = some ii)
    (hl : ii.imageLayout = VkImageLayout.tensorAliasingARM) :
    substituteTensorWriteDescriptorSet experimental [w] =
      Except.ok
        ([⟨w.dstSet, w.dstBinding, w.dstArrayElement, w.descriptorCount,
           w.descriptorType,
           some ⟨ii.sampler, ii.imageView, VkImageLayout.general⟩,
           w.pBufferInfo, w.pTexelBufferView, w.tensorInfo⟩],
         [], [⟨ii.sampler, ii.imageView, VkImageLayout.general⟩]) := by
  unfold substituteTensorWriteDescriptorSet substituteWritesLoop
  simp only [hnt, if_false, hii, hl, if_true, Bool.false_eq_true]
  rfl

/-- Witness for C9: an image write (descriptor count 3) with the
tensor-aliasing layout is rewritten to the general layout with all other
fields kept. -/
theorem c9_image_layout_rewrite_witness :
    substituteTensorWriteDescriptorSet false
      [⟨7, 1, 2, 3, VkDescriptorType.other 5,
        some ⟨11, 12, VkImageLayout.tensorAliasingARM⟩, none, some 13, none⟩] =
      Except.ok
        ([⟨7, 1, 2, 3, VkDescriptorType.other 5,
           some ⟨11, 12, VkImageLayout.general⟩, none, some 13, none⟩],
         [], [⟨11, 12, VkImageLayout.general⟩]) :=
  c9_image_layout_rewrite false
    ⟨7, 1, 2, 3, VkDescriptorType.other 5,
      some ⟨11, 12, VkImageLayout.tensorAliasingARM⟩, none, some 13, none⟩
    ⟨11, 12, VkImageLayout.tensorAliasingARM⟩
    (by decide) (by decide) (by decide)

/-! ## Claim C4 -/

/-- Fallback element for `List.getD` on writes. -/
def defaultWrite : VkWriteDescriptorSet :=
  ⟨0, 0, 0, 0, VkDescriptorType.other 0, none, none, none, none⟩

/-- Fallback element for `List.getD` on buffer infos. -/
def defaultBufferInfo : VkDescriptorBufferInfo := ⟨0, 0, 0⟩

/-- Fallback element for `List.getD` on tensor views. -/
def defaultTensorView : TensorViewARM := ⟨0, 0⟩

/-- The uniform-buffer writes the tensor-write expansion emits, starting
at view offset `j` with the next free buffer-info slot `b`. -/
def expectedUBWrites (w : VkWriteDescriptorSet) :
    Nat → Nat → List TensorViewARM → List VkWriteDescriptorSet
  | _, _, [] => []
  | j, b, _ :: vs =>
    ⟨w.dstSet, w.dstBinding, (w.dstArrayElement + j) % 2 ^ 32, 1,
     VkDescriptorType.uniformBuffer, none,
     some (BufferInfoPtr.callLocal b), none, none⟩ ::
      expectedUBWrites w (j + 1) (b + 1) vs

lemma expectedUBWrites_length (w : VkWriteDescriptorSet)
    (views : List TensorViewARM) :
    ∀ j b, (expectedUBWrites w j b views).length = views.length := by
  induction views with
  | nil => intro j b; rfl
  | cons v vs ih =>
    intro j b
    simp only [expectedUBWrites, List.length_cons, ih]

lemma expectedUBWrites_getD (w : VkWriteDescriptorSet)
    (views : List TensorViewARM) :
    ∀ j b k, k < views.length →
      (expectedUBWrites w j b views).getD k defaultWrite =
        ⟨w.dstSet, w.dstBinding, (w.dstArrayElement + (j + k)) % 2 ^ 32, 1,
         VkDescriptorType.uniformBuffer, none,
         some (BufferInfoPtr.callLocal (b + k)), none, none⟩ := by
  induction views with
  | nil => intro j b k hk; simp at hk
  | cons v vs ih =>
    intro j b k hk
    cases k with
    | zero => simp [expectedUBWrites]
    | succ m =>
      simp only [expectedUBWrites, List.getD_cons_succ]
      rw [ih (j + 1) (b + 1) m (by simpa using hk)]
      have h1 : j + 1 + m = j + (m + 1) := by omega
      have h2 : b + 1 + m = b + (m + 1) := by omega
      rw [h1, h2]

lemma expectedUBWrites_mem (w : VkWriteDescriptorSet)
    (views : List TensorViewARM) :
    ∀ j b x, x ∈ expectedUBWrites w j b views →
      x.descriptorType = VkDescriptorType.uniformBuffer := by
  induction views with
  | nil => intro j b x hx; simp [expectedUBWrites] at hx
  | cons v vs ih =>
    intro j b x hx
    rcases List.mem_cons.mp hx with rfl | hx2
    · rfl
    · exact ih (j + 1) (b + 1) x hx2

/-- Closed form of the inner loop in the default build: the uniform
writes and view buffer-info records are appended to the state. -/
lemma emitTensorWrites_false_closed (w : VkWriteDescriptorSet)
    (views : List TensorViewARM) :
    ∀ (j : Nat) (st : WriteSubstState),
      emitTensorWrites false w j views st =
        ⟨st.writes ++ expectedUBWrites w j st.bufferInfos.length views,
         st.bufferInfos ++
           views.map (fun v => ⟨v.descriptorBuffer, 0, VK_WHOLE_SIZE⟩),
         st.imageInfos⟩ := by
  induction views with
  | nil => intro j st; simp [emitTensorWrites, expectedUBWrites]
  | cons v vs ih =>
    intro j st
    simp only [emitTensorWrites, Bool.false_eq_true, if_false]
    rw [ih (j + 1)]
    simp only [expectedUBWrites, List.length_append, List.length_singleton,
      List.map_cons, List.append_assoc, List.singleton_append,
      List.cons_append, List.nil_append]

/-- Filter counts of the inner loop in experimental mode: each view adds
exactly one uniform-buffer write and one storage-buffer write. -/
lemma emitTensorWrites_true_counts (w : VkWriteDescriptorSet)
    (views : List TensorViewARM) :
    ∀ (j : Nat) (st : WriteSubstState),
      ((emitTensorWrites true w j views st).writes.filter (fun x =>
          x.descriptorType == VkDescriptorType.uniformBuffer)).length =
        (st.writes.filter (fun x =>
          x.descriptorType == VkDescriptorType.uniformBuffer)).length +
          views.length ∧
      ((emitTensorWrites true w j views st).writes.filter (fun x =>
          x.descriptorType == VkDescriptorType.storageBuffer)).length =
        (st.writes.filter (fun x =>
          x.descriptorType == VkDescriptorType.storageBuffer)).length +
          views.length := by
  induction views with
  | nil => intro j st; simp [emitTensorWrites]
  | cons v vs ih =>
    intro j st
    simp only [emitTensorWrites, if_true]
    constructor
    · rw [(ih (j + 1) _).1]
      simp [List.filter_append]
      omega
    · rw [(ih (j + 1) _).2]
      simp [List.filter_append]
      omega

/-- C4: a tensor write carrying `N` attached tensor views expands, in the
default build, into exactly `N` uniform-buffer writes and no others; the
j-th of them addresses the original destination set and binding at array
element `dstArrayElement + j` with descriptor count 1 and points at the
j-th call-local buffer-info record, which references the j-th view
descriptor buffer with offset 0 and whole-buffer range; the buffer-info
records of distinct emitted writes are distinct.  In experimental mode
the call emits exactly `N` uniform-buffer writes plus `N` additional
storage-buffer writes. -/
theorem c4_substitute_tensor_write (w : VkWriteDescriptorSet)
    (views : List TensorViewARM)
    (ht : hasTensorWrite w = true) (hv : w.tensorInfo = some views)
    (hae : w.dstArrayElement + views.length < 2 ^ 32) :
    (∃ ws bis iis,
      substituteTensorWriteDescriptorSet false [w] =
        Except.ok (ws, bis, iis) ∧
      ws.length = views.length ∧
      bis.length = views.length ∧
      iis = [] ∧
      (∀ j, j < views.length →
        ws.getD j defaultWrite =
          ⟨w.dstSet, w.dstBinding, w.dstArrayElement + j, 1,
           VkDescriptorType.uniformBuffer, none,
           some (BufferInfoPtr.callLocal j), none, none⟩ ∧
        bis.getD j defaultBufferInfo =
          ⟨(views.getD j defaultTensorView).descriptorBuffer, 0,
           VK_WHOLE_SIZE⟩) ∧
      (∀ j k, j < views.length → k < views.length → j ≠ k →
        (ws.getD j defaultWrite).pBufferInfo ≠
          (ws.getD k defaultWrite).pBufferInfo) ∧
      (∀ x ∈ ws, x.descriptorType = VkDescriptorType.uniformBuffer)) ∧
    (∃ ws2 bis2 iis2,
      substituteTensorWriteDescriptorSet true [w] =
        Except.ok (ws2, bis2, iis2) ∧
      (ws2.filter (fun x =>
        x.descriptorType == VkDescriptorType.uniformBuffer)).length =
          views.length ∧
      (ws2.filter (fun x =>
        x.descriptorType == VkDescriptorType.storageBuffer)).length =
          views.length) := by
  constructor
  · have hloop : substituteTensorWriteDescriptorSet false [w] =
        Except.ok
          ((emitTensorWrites false w 0 views ⟨[], [], []⟩).writes,
           (emitTensorWrites false w 0 views ⟨[], [], []⟩).bufferInfos,
           (emitTensorWrites false w 0 views ⟨[], [], []⟩).imageInfos) := by
      unfold substituteTensorWriteDescriptorSet substituteWritesLoop
      simp only [ht, if_true, hv]
      rfl
    rw [emitTensorWrites_false_closed w views 0 ⟨[], [], []⟩] at hloop
    simp only [List.nil_append, List.length_nil] at hloop
    refine ⟨expectedUBWrites w 0 0 views,
      views.map (fun v => ⟨v.descriptorBuffer, 0, VK_WHOLE_SIZE⟩), [],
      hloop, expectedUBWrites_length w views 0 0, by simp, rfl, ?_, ?_, ?_⟩
    · intro j hj
      constructor
      · rw [expectedUBWrites_getD w views 0 0 j hj]
        simp only [Nat.zero_add]
        rw [Nat.mod_eq_of_lt (by omega)]
      · rw [getD_map_of_lt _ views j defaultTensorView defaultBufferInfo hj]
    · intro j k hj hk hjk
      rw [expectedUBWrites_getD w views 0 0 j hj,
        expectedUBWrites_getD w views 0 0 k hk]
      simp only [Nat.zero_add]
      intro heq
      apply hjk
      simpa using heq
    · intro x hx
      exact expectedUBWrites_mem w views 0 0 x hx
  · have hloop : substituteTensorWriteDescriptorSet true [w] =
        Except.ok
          ((emitTensorWrites true w 0 views ⟨[], [], []⟩).writes,
           (emitTensorWrites true w 0 views ⟨[], [], []⟩).bufferInfos,
           (emitTensorWrites true w 0 views ⟨[], [], []⟩).imageInfos) := by
      unfold substituteTensorWriteDescriptorSet substituteWritesLoop
      simp only [ht, if_true, hv]
      rfl
    have hc := emitTensorWrites_true_counts w views 0 ⟨[], [], []⟩
    refine ⟨_, _, _, hloop, ?_, ?_⟩
    · rw [hc.1]; simp
    · rw [hc.2]; simp

/-- Witness tensor write for C4: destination set 1, binding 2, base array
element 3, with two attached tensor views. -/
def c4views : List TensorViewARM := [⟨100, 200⟩, ⟨101, 201⟩]

/-- The witness write itself. -/
def c4write : VkWriteDescriptorSet :=
  ⟨1, 2, 3, 5, VkDescriptorType.tensorARM, none, none, none, some c4views⟩

/-- Witness for C4 on a concrete two-view tensor write. -/
theorem c4_substitute_tensor_write_witness :
    (∃ ws bis iis,
      substituteTensorWriteDescriptorSet false [c4write] =
        Except.ok (ws, bis, iis) ∧
      ws.length = c4views.length ∧
      bis.length = c4views.length ∧
      iis = [] ∧
      (∀ j, j < c4views.length →
        ws.getD j defaultWrite =
          ⟨c4write.dstSet, c4write.dstBinding, c4write.dstArrayElement + j, 1,
           VkDescriptorType.uniformBuffer, none,
           some (BufferInfoPtr.callLocal j), none, none⟩ ∧
        bis.getD j defaultBufferInfo =
          ⟨(c4views.getD j defaultTensorView).descriptorBuffer, 0,
           VK_WHOLE_SIZE⟩) ∧
      (∀ j k, j < c4views.length → k < c4views.length → j ≠ k →
        (ws.getD j defaultWrite).pBufferInfo ≠
          (ws.getD k defaultWrite).pBufferInfo) ∧
      (∀ x ∈ ws, x.descriptorType = VkDescriptorType.uniformBuffer)) ∧
    (∃ ws2 bis2 iis2,
      substituteTensorWriteDescriptorSet true [c4write] =
        Except.ok (ws2, bis2, iis2) ∧
      (ws2.filter (fun x =>
        x.descriptorType == VkDescriptorType.uniformBuffer)).length =
          c4views.length ∧
      (ws2.filter (fun x =>
        x.descriptorType == VkDescriptorType.storageBuffer)).length =
          c4views.length) :=
  c4_substitute_tensor_write c4write c4views rfl rfl (by decide)

/-! ## Pool-size rewrite -/

/-- `VkDescriptorPoolSize`. -/
structure VkDescriptorPoolSize where
  type : VkDescriptorType
  descriptorCount : Nat
deriving DecidableEq

/-- `hasTensor` for pool sizes (src/tensor/descriptor_binding.hpp
line 25). -/
def hasTensorPoolSize (p : VkDescriptorPoolSize) : Bool :=
  p.type == VkDescriptorType.tensorARM

/-- The `std::find_if` plus increment-or-append step of
`substituteTensorDescriptorPoolSizes`: add `count` to the first entry of
type `ty`, or append a new entry when none exists; the increment is
32-bit. -/
def addPoolCount (ty : VkDescriptorType) (count : Nat) :
    List VkDescriptorPoolSize → List VkDescriptorPoolSize
  | [] => [⟨ty, count⟩]
  | p :: ps =>
    if p.type == ty then
      ⟨p.type, (p.descriptorCount + count) % 2 ^ 32⟩ :: ps
    else p :: addPoolCount ty count ps

/-- The `descriptorPoolSizes` local of the source loop: every non-tensor
entry, in order. -/
def removedTensorPoolSizes (poolSizes : List VkDescriptorPoolSize) :
    List VkDescriptorPoolSize :=
  poolSizes.filter (fun p => !hasTensorPoolSize p)

/-- The `tensorCount` local of the source loop: the 32-bit accumulation
of the counts of the tensor entries, in list order. -/
def tensorPoolCount (poolSizes : List VkDescriptorPoolSize) : Nat :=
  poolSizes.foldl
    (fun acc p =>
      if hasTensorPoolSize p then (acc + p.descriptorCount) % 2 ^ 32 else acc)
    0

/-- `substituteTensorDescriptorPoolSizes`
(src/tensor/descriptor_binding.hpp lines 144-184).  The single source
loop both filters out tensor entries and accumulates their counts; its
two locals are `removedTensorPoolSizes` and `tensorPoolCount` here.
When any tensor descriptors were seen, the accumulated count is folded
into the first uniform-buffer entry or appended, and in experimental
mode the same is then done for the storage-buffer entry. -/
def substituteTensorDescriptorPoolSizes (experimental : Bool)
    (poolSizes : List VkDescriptorPoolSize) : List VkDescriptorPoolSize :=
  if 0 < tensorPoolCount poolSizes then
    if experimental then
      addPoolCount VkDescriptorType.storageBuffer (tensorPoolCount poolSizes)
        (addPoolCount VkDescriptorType.uniformBuffer
          (tensorPoolCount poolSizes) (removedTensorPoolSizes poolSizes))
    else
      addPoolCount VkDescriptorType.uniformBuffer (tensorPoolCount poolSizes)
        (removedTensorPoolSizes poolSizes)
  else removedTensorPoolSizes poolSizes

/-! ## Claim C5 -/

/-- Spec-side bump: add `c` to the first entry of type `ty`. -/
def bumpFirstOfType (ty : VkDescriptorType) (c : Nat) :
    List VkDescriptorPoolSize → List VkDescriptorPoolSize
  | [] => []
  | p :: ps =>
    if p.type == ty then ⟨p.type, p.descriptorCount + c⟩ :: ps
    else p :: bumpFirstOfType ty c ps

/-- Spec-side accumulated tensor count: the plain sum of the counts of
the tensor entries. -/
def tensorPoolTotal (poolSizes : List VkDescriptorPoolSize) : Nat :=
  ((poolSizes.filter (fun p => hasTensorPoolSize p)).map
    (fun p => p.descriptorCount)).sum

/-- The pool-size rewrite exactly as the spec words it (default build):
remove every tensor entry while summing their counts, pass all other
entries through unchanged, and add the accumulated count to an existing
uniform-buffer entry if one is present, else append a new uniform-buffer
entry with exactly that count.  Stated separately from the
implementation to compare the two. -/
def poolSizesRewriteSpec (poolSizes : List VkDescriptorPoolSize) :
    List VkDescriptorPoolSize :=
  if tensorPoolTotal poolSizes = 0 then removedTensorPoolSizes poolSizes
  else if (removedTensorPoolSizes poolSizes).any
      (fun p => p.type == VkDescriptorType.uniformBuffer) then
    bumpFirstOfType VkDescriptorType.uniformBuffer
      (tensorPoolTotal poolSizes) (removedTensorPoolSizes poolSizes)
  else removedTensorPoolSizes poolSizes ++
    [⟨VkDescriptorType.uniformBuffer, tensorPoolTotal poolSizes⟩]

lemma le_sum_of_mem_map {α : Type} (f : α → Nat) (l : List α) (x : α)
    (hx : x ∈ l) : f x ≤ (l.map f).sum := by
  induction l with
  | nil => simp at hx
  | cons a t ih =>
    rcases List.mem_cons.mp hx with rfl | h
    · simp only [List.map_cons, List.sum_cons]
      omega
    · have := ih h
      simp only [List.map_cons, List.sum_cons]
      omega

lemma sum_filter_split (f : VkDescriptorPoolSize → Bool)
    (l : List VkDescriptorPoolSize) :
    ((l.filter f).map (fun p => p.descriptorCount)).sum +
      ((l.filter (fun p => !f p)).map (fun p => p.descriptorCount)).sum =
      (l.map (fun p => p.descriptorCount)).sum := by
  induction l with
  | nil => simp
  | cons p t ih =>
    by_cases h : f p = true
    · rw [List.filter_cons_of_pos h, List.filter_cons_of_neg (by simp [h])]
      simp only [List.map_cons, List.sum_cons]
      omega
    · have h2 : f p = false := by simpa using h
      rw [List.filter_cons_of_neg (by simp [h2]),
        List.filter_cons_of_pos (by simp [h2])]
      simp only [List.map_cons, List.sum_cons]
      omega

/-- Without 32-bit overflow the accumulating fold of the source equals
the plain sum of the tensor-entry counts. -/
lemma tensorCount_foldl (ps : List VkDescriptorPoolSize) (acc : Nat)
    (h : acc + ((ps.filter (fun p => hasTensorPoolSize p)).map
        (fun p => p.descriptorCount)).sum < 2 ^ 32) :
    ps.foldl (fun a p =>
        if hasTensorPoolSize p then (a + p.descriptorCount) % 2 ^ 32 else a)
      acc =
      acc + ((ps.filter (fun p => hasTensorPoolSize p)).map
        (fun p => p.descriptorCount)).sum := by
  induction ps generalizing acc with
  | nil => simp
  | cons p t ih =>
    by_cases hp : hasTensorPoolSize p = true
    · have hs : (((p :: t).filter (fun p => hasTensorPoolSize p)).map
          (fun p => p.descriptorCount)).sum =
          p.descriptorCount + ((t.filter (fun p => hasTensorPoolSize p)).map
            (fun p => p.descriptorCount)).sum := by
        rw [List.filter_cons_of_pos hp]
        simp
      rw [hs] at h
      simp only [List.foldl_cons, hp, if_true]
      rw [Nat.mod_eq_of_lt (by omega)]
      rw [ih (acc + p.descriptorCount) (by omega), hs]
      omega
    · have hp2 : hasTensorPoolSize p = false := by simpa using hp
      have hs : (((p :: t).filter (fun p => hasTensorPoolSize p)).map
          (fun p => p.descriptorCount)).sum =
          ((t.filter (fun p => hasTensorPoolSize p)).map
            (fun p => p.descriptorCount)).sum := by
        rw [List.filter_cons_of_neg (by simp [hp2])]
      rw [hs] at h
      simp only [List.foldl_cons, hp2, Bool.false_eq_true, if_false]
      rw [ih acc (by omega), hs]

/-- `tensorPoolCount` equals `tensorPoolTotal` when the total count of
the list does not overflow 32 bits. -/
lemma tensorPoolCount_eq_total (ps : List VkDescriptorPoolSize)
    (hsum : (ps.map (fun p => p.descriptorCount)).sum < 2 ^ 32) :
    tensorPoolCount ps = tensorPoolTotal ps := by
  have hsplit := sum_filter_split (fun p => hasTensorPoolSize p) ps
  unfold tensorPoolCount tensorPoolTotal
  rw [tensorCount_foldl ps 0 (by omega)]
  omega

/-- Without overflow at the bumped entry, the source increment-or-append
step equals the spec-side fold-or-append step. -/
lemma addPoolCount_spec (ty : VkDescriptorType) (c : Nat)
    (rest : List VkDescriptorPoolSize)
    (hc : ∀ p ∈ rest, p.descriptorCount + c < 2 ^ 32) :
    addPoolCount ty c rest =
      if rest.any (fun p => p.type == ty) then bumpFirstOfType ty c rest
      else rest ++ [⟨ty, c⟩] := by
  induction rest with
  | nil => simp [addPoolCount, bumpFirstOfType]
  | cons p t ih =>
    by_cases hp : (p.type == ty) = true
    · have hcp := hc p (List.mem_cons_self p t)
      simp only [addPoolCount, hp, if_true, List.any_cons, Bool.true_or,
        bumpFirstOfType]
      rw [Nat.mod_eq_of_lt (by omega)]
    · have hp2 : (p.type == ty) = false := by simpa using hp
      have ih2 := ih (fun q hq => hc q (List.mem_cons_of_mem p hq))
      simp only [addPoolCount, hp2, Bool.false_eq_true, if_false,
        List.any_cons, Bool.false_or, bumpFirstOfType]
      rw [ih2]
      by_cases ha : t.any (fun q => q.type == ty) = true
      · simp [ha]
      · have ha2 : t.any (fun q => q.type == ty) = false := by simpa using ha
        simp [ha2]

/-- C5: on the concrete lists of the spec, {TENSOR 5, UNIFORM 10} becomes
{UNIFORM 15} (no tensor entry left) and {TENSOR 3} alone becomes
{UNIFORM 3}; and in general (default build, without 32-bit overflow) the
implementation coincides with the spec-side description: tensor entries
removed and summed, all other entries passed through unchanged in order,
the sum folded into the first existing uniform-buffer entry or appended
as a new one. -/
theorem c5_pool_sizes :
    substituteTensorDescriptorPoolSizes false
      [⟨VkDescriptorType.tensorARM, 5⟩, ⟨VkDescriptorType.uniformBuffer, 10⟩] =
      [⟨VkDescriptorType.uniformBuffer, 15⟩] ∧
    substituteTensorDescriptorPoolSizes false
      [⟨VkDescriptorType.tensorARM, 3⟩] =
      [⟨VkDescriptorType.uniformBuffer, 3⟩] ∧
    (∀ ps : List VkDescriptorPoolSize,
      (ps.map (fun p => p.descriptorCount)).sum < 2 ^ 32 →
      substituteTensorDescriptorPoolSizes false ps =
        poolSizesRewriteSpec ps) := by
  refine ⟨by decide, by decide, ?_⟩
  intro ps hsum
  have heq := tensorPoolCount_eq_total ps hsum
  unfold substituteTensorDescriptorPoolSizes poolSizesRewriteSpec
  rw [heq]
  rcases Nat.eq_zero_or_pos (tensorPoolTotal ps) with hz | hpos
  · rw [hz]
    simp
  · rw [if_pos hpos]
    rw [if_neg (show ¬tensorPoolTotal ps = 0 from by omega)]
    have hsplit := sum_filter_split (fun p => hasTensorPoolSize p) ps
    have hc : ∀ p ∈ removedTensorPoolSizes ps,
        p.descriptorCount + tensorPoolTotal ps < 2 ^ 32 := by
      intro p hp
      have hle := le_sum_of_mem_map (fun p => p.descriptorCount)
        (removedTensorPoolSizes ps) p hp
      unfold removedTensorPoolSizes at hle
      have hle2 : p.descriptorCount ≤
          ((ps.filter (fun p => !hasTensorPoolSize p)).map
            (fun p => p.descriptorCount)).sum := hle
      unfold tensorPoolTotal
      omega
    rw [addPoolCount_spec VkDescriptorType.uniformBuffer (tensorPoolTotal ps)
      (removedTensorPoolSizes ps) hc]
    simp

/-- Witness for the universal part of C5 on a mixed list with two tensor
entries, a uniform entry and an unrelated entry. -/
theorem c5_pool_sizes_witness :
    substituteTensorDescriptorPoolSizes false
      [⟨VkDescriptorType.tensorARM, 5⟩, ⟨VkDescriptorType.other 3, 2⟩,
       ⟨VkDescriptorType.uniformBuffer, 10⟩, ⟨VkDescriptorType.tensorARM, 4⟩] =
      poolSizesRewriteSpec
        [⟨VkDescriptorType.tensorARM, 5⟩, ⟨VkDescriptorType.other 3, 2⟩,
         ⟨VkDescriptorType.uniformBuffer, 10⟩, ⟨VkDescriptorType.tensorARM, 4⟩] :=
  c5_pool_sizes.2.2
    [⟨VkDescriptorType.tensorARM, 5⟩, ⟨VkDescriptorType.other 3, 2⟩,
     ⟨VkDescriptorType.uniformBuffer, 10⟩, ⟨VkDescriptorType.tensorARM, 4⟩]
    (by decide)
